import Mathlib

/-
Verification of the log-cache edge process core against its specification.

Source of truth for the ingestion path: internal/pkg/routing/batched_ingress_client.go.
The ring buffer (code.cloudfoundry.org/go-diodes) and the batch accumulator
(code.cloudfoundry.org/go-batching) are external dependencies whose sources are
not part of this repository; they are modelled from the specification text, as
are the gateway's HTTP handlers, whose source file is not present here (only
gateway_test.go is).
-/

namespace LogCache

/-- An opaque telemetry record; the core never inspects its fields, so a single
payload tag is enough to track identity and order. -/
structure Envelope where
  payload : Nat
deriving DecidableEq

/-- loggregator_v2.EnvelopeBatch: an ordered batch of envelopes. -/
structure EnvelopeBatch where
  batch : List Envelope
deriving DecidableEq

/-- rpc.SendRequest as used by BatchedIngressClient: the LocalOnly flag and an
optional (nil-able) envelope batch. -/
structure SendRequest where
  localOnly : Bool := false
  envelopes : Option EnvelopeBatch := none
deriving DecidableEq

/-- rpc.SendResponse: an empty message. -/
structure SendResponse where
deriving DecidableEq

/-- Go getter chain in.GetEnvelopes().GetBatch(): yields the empty list when the
Envelopes field is nil. -/
def SendRequest.getBatchList (r : SendRequest) : List Envelope :=
  match r.envelopes with
  | none => []
  | some eb => eb.batch

/-- A Go context value, as far as the core distinguishes contexts: the
background context, a timeout-wrapped context (seconds), and a canceled one. -/
inductive Context where
  | background : Context
  | withTimeout : Context → Nat → Context
  | canceled : Context → Context
deriving DecidableEq

/-- A grpc.CallOption, opaque to the core. -/
structure CallOption where
  tag : Nat
deriving DecidableEq

/-- One outgoing RPC invocation of the downstream IngressClient.Send: the
context it runs under and the request it carries. -/
structure RpcCall where
  ctx : Context
  request : SendRequest
deriving DecidableEq

/-- Observable effects of the write path: downstream RPC calls issued and log
lines emitted. -/
structure WriteEffect where
  calls : List RpcCall
  logs : List String
deriving DecidableEq

/-- Modelled from the spec: the state of the diodes.OneToOne ring buffer built
in NewBatchedIngressClient, together with the observable state of its alert
closure, whose source (go-diodes) is not in this repository. Per the spec the
buffer has a fixed capacity, overwrites the oldest unread entry when full, and
the overflow callback fires with the count dropped since the previous callback
(one per overwrite here, since the callback fires at every overwrite); the
callback from NewBatchedIngressClient logs the count and adds it to the
Dropped counter. -/
structure IngressState where
  capacity : Nat
  ring : List Envelope
  droppedCounter : Nat
  logs : List String
deriving DecidableEq

/-- Modelled from the spec: diode Set. Append when there is room; otherwise
overwrite the oldest unread entry and fire the overflow callback, which logs
"Dropped 1 envelopes" (the log.Printf format from NewBatchedIngressClient with
missed = 1) and increments the Dropped counter. -/
def IngressState.set (s : IngressState) (e : Envelope) : IngressState :=
  if s.ring.length < s.capacity then
    { s with ring := s.ring ++ [e] }
  else
    { s with
      ring := s.ring.tail ++ [e]
      droppedCounter := s.droppedCounter + 1
      logs := s.logs ++ ["Dropped 1 envelopes"] }

/-- Enqueue a list of envelopes one by one, in order. -/
def IngressState.enqueueAll (s : IngressState) (es : List Envelope) : IngressState :=
  es.foldl IngressState.set s

/-- A freshly constructed ring buffer of the given capacity with the drop
counter at zero. -/
def initialIngress (capacity : Nat) : IngressState :=
  { capacity := capacity, ring := [], droppedCounter := 0, logs := [] }

/-- The BatchedIngressClient value built by NewBatchedIngressClient: the batch
size threshold, the flush interval, and the ring buffer. -/
structure BatchedIngressClient where
  size : Nat
  intervalMs : Nat
  buffer : IngressState
deriving DecidableEq

/-- NewBatchedIngressClient from batched_ingress_client.go: stores size and
interval from its arguments and constructs the diode ring buffer with the
hard-coded capacity 10000. -/
def NewBatchedIngressClient (size : Nat) (intervalMs : Nat) : BatchedIngressClient :=
  { size := size
    intervalMs := intervalMs
    buffer := initialIngress 10000 }

/-- BatchedIngressClient.Send from batched_ingress_client.go: enqueues each
envelope of the request's batch individually (in batch order) into the ring
buffer and returns an empty SendResponse with a nil error. The ctx and opts
arguments are ignored by the body. -/
def BatchedIngressClient.Send (buffer : IngressState) (ctx : Context)
    (input : SendRequest) (opts : List CallOption) :
    IngressState × SendResponse × Option String :=
  (buffer.enqueueAll input.getBatchList, ⟨⟩, none)

/-- BatchedIngressClient.write from batched_ingress_client.go: issues exactly
one downstream Send RPC under a fresh 3-second background-derived context,
carrying the batch in order with LocalOnly set, and on error logs
"failed to write envelope: <err>" and discards the batch. The downstream
client is a function from the request to an optional error message. -/
def BatchedIngressClient.write (c : SendRequest → Option String)
    (batch : List Envelope) : WriteEffect :=
  let req : SendRequest := { localOnly := true, envelopes := some { batch := batch } }
  let ctx := Context.withTimeout Context.background 3
  match c req with
  | none => { calls := [{ ctx := ctx, request := req }], logs := [] }
  | some err =>
      { calls := [{ ctx := ctx, request := req }]
        logs := ["failed to write envelope: " ++ err] }

/-- Modelled from the spec: the go-batching accumulator state (its source is
not in this repository): the configured size threshold and the accumulated
batch. -/
structure Batcher where
  size : Nat
  batch : List Envelope
deriving DecidableEq

/-- Modelled from the spec: accumulator flush — "flushing converts the
accumulated sequence into one RPC Send call", regardless of the current size;
an empty accumulator yields no call. -/
def Batcher.Flush (c : SendRequest → Option String) (b : Batcher) :
    Batcher × WriteEffect :=
  match b.batch with
  | [] => (b, { calls := [], logs := [] })
  | _ :: _ => ({ b with batch := [] }, BatchedIngressClient.write c b.batch)

/-- Modelled from the spec: accumulator write — append the item; once the
item-count threshold is reached the batch is flushed immediately. -/
def Batcher.Write (c : SendRequest → Option String) (b : Batcher) (e : Envelope) :
    Batcher × WriteEffect :=
  let nb := b.batch ++ [e]
  if b.size ≤ nb.length then ({ b with batch := [] }, BatchedIngressClient.write c nb)
  else ({ b with batch := nb }, { calls := [], logs := [] })

/-- An observable action of the background consumer loop. -/
inductive Action where
  | rpc : RpcCall → Action
  | logLine : String → Action
  | sleepMs : Nat → Action
deriving DecidableEq

/-- The actions an effect amounts to: the RPC calls then the log lines. -/
def WriteEffect.actions (w : WriteEffect) : List Action :=
  w.calls.map Action.rpc ++ w.logs.map Action.logLine

/-- One iteration of BatchedIngressClient.start from
batched_ingress_client.go: TryNext on the buffer; when it yields nothing the
batcher is flushed and the loop sleeps 50 milliseconds; when it yields an
envelope the batcher's Write consumes it. Returns the buffer and batcher
afterwards and the actions performed. -/
def BatchedIngressClient.loopIteration (c : SendRequest → Option String)
    (st : IngressState) (b : Batcher) : IngressState × Batcher × List Action :=
  match st.ring with
  | [] =>
      ( st
      , (Batcher.Flush c b).1
      , (Batcher.Flush c b).2.actions ++ [Action.sleepMs 50] )
  | e :: rest =>
      ( { st with ring := rest }
      , (Batcher.Write c b e).1
      , (Batcher.Write c b e).2.actions )

/-- Value of a hexadecimal digit character, if it is one. -/
def hexDigitVal (c : Char) : Option Nat :=
  if '0' ≤ c ∧ c ≤ '9' then some (c.toNat - '0'.toNat)
  else if 'a' ≤ c ∧ c ≤ 'f' then some (c.toNat - 'a'.toNat + 10)
  else if 'A' ≤ c ∧ c ≤ 'F' then some (c.toNat - 'A'.toNat + 10)
  else none

/-- Percent-decoding over a character list: a valid escape %XY becomes the
character with code 16*X+Y; an invalid escape is kept literally. -/
def percentDecodeChars : List Char → List Char
  | [] => []
  | '%' :: a :: b :: rest =>
    match hexDigitVal a, hexDigitVal b with
    | some ha, some hb => Char.ofNat (16 * ha + hb) :: percentDecodeChars rest
    | _, _ => '%' :: percentDecodeChars (a :: b :: rest)
  | c :: rest => c :: percentDecodeChars rest

/-- Percent-decoding (URL decoding) of a string. -/
def percentDecode (s : String) : String :=
  ⟨percentDecodeChars s.data⟩

/-- The claim's request-path encoding of a source identifier: each slash is
written as the escape %2F, every other character is kept literally. -/
def encodeSlashChars : List Char → List Char
  | [] => []
  | '/' :: rest => '%' :: '2' :: 'F' :: encodeSlashChars rest
  | c :: rest => c :: encodeSlashChars rest

/-- Slash-escaping of a whole source identifier. -/
def encodeSlash (s : String) : String :=
  ⟨encodeSlashChars s.data⟩

/-- Modelled from the spec: the gateway's read handler (its source file is not
in this repository) takes the path remainder after /api/v1/read/ as the
sourceId segment and URL-decodes it, slashes preserved; the decoded value is
the sourceId field of the outgoing Read RPC. -/
def readRpcSourceId (rawSegment : String) : String :=
  percentDecode rawSegment

/-- JSON string-content escaping over characters: quote, backslash and newline
are escaped, other characters pass through. -/
def jsonEscapeList : List Char → List Char
  | [] => []
  | c :: rest =>
    if c = '"' then '\\' :: '"' :: jsonEscapeList rest
    else if c = '\\' then '\\' :: '\\' :: jsonEscapeList rest
    else if c = '\n' then '\\' :: 'n' :: jsonEscapeList rest
    else c :: jsonEscapeList rest

/-- JSON string-content escaping of a string. -/
def jsonEscape (s : String) : String :=
  ⟨jsonEscapeList s.data⟩

/-- The decimal digit character for a value below ten. -/
def digitChar : Nat → Char
  | 0 => '0'
  | 1 => '1'
  | 2 => '2'
  | 3 => '3'
  | 4 => '4'
  | 5 => '5'
  | 6 => '6'
  | 7 => '7'
  | 8 => '8'
  | 9 => '9'
  | _ + 10 => '0'

/-- Fuelled digit extraction for decimal rendering, most significant digit
first; the fuel bounds the number of digits. -/
def natDecimalAux : Nat → Nat → List Char → List Char
  | 0, _, acc => acc
  | fuel + 1, n, acc =>
    if n < 10 then digitChar n :: acc
    else natDecimalAux fuel (n / 10) (digitChar (n % 10) :: acc)

/-- Decimal rendering of a natural number. -/
def natDecimal (n : Nat) : String :=
  ⟨natDecimalAux (n + 1) n []⟩

/-- Decimal rendering of an integer. -/
def intDecimal : Int → String
  | Int.ofNat n => natDecimal n
  | Int.negSucc n => "-" ++ natDecimal (n + 1)

/-- An HTTP response as the gateway emits it: status code, Content-Type header
and body. -/
structure HttpResponse where
  status : Nat
  contentType : String
  body : String
deriving DecidableEq

/-- Modelled from the spec: on RPC query failure the handler (whose source is
not in this repository) responds 500 with Content-Type application/json and
the JSON object with status "error", errorType "internal" and the error field
holding the verbatim RPC error text. -/
def promQLErrorResponse (m : String) : HttpResponse :=
  { status := 500
    contentType := "application/json"
    body := "\x7b\"status\":\"error\",\"errorType\":\"internal\",\"error\":\"" ++
      jsonEscape m ++ "\"\x7d" }

/-- Modelled from the spec: the instant-query scalar encoding (the encoder's
source is not in this repository) renders status "success" and a scalar result
as the two-element array of the timestamp in seconds and the value as a
decimal string. -/
def promQLScalarResponse (timeSeconds : Int) (value : Int) : HttpResponse :=
  { status := 200
    contentType := "application/json"
    body := "\x7b\"status\":\"success\",\"data\":\x7b\"resultType\":\"scalar\",\"result\":[" ++
      intDecimal timeSeconds ++ ",\"" ++ intDecimal value ++ "\"]\x7d\x7d" }

/-- Modelled from the spec: the info endpoint returns the configured version
string as a JSON object. -/
def infoResponse (version : String) : HttpResponse :=
  { status := 200
    contentType := "application/json"
    body := "\x7b\"version\":\"" ++ jsonEscape version ++ "\"\x7d" }

/-- Appending the trailing newline to a serialized JSON body. -/
def withTrailingNewline (body : String) : String :=
  body ++ "\n"

/-- Modelled from the spec: every successful (status 200) response body is
served with a trailing newline appended to its JSON serialization. -/
def servedBody (r : HttpResponse) : String :=
  if r.status = 200 then withTrailingNewline r.body else r.body

/-- The body ends with exactly one newline: its last character is a newline
and it contains exactly one newline overall. -/
def endsOneNewline (s : String) : Prop :=
  s.data.getLast? = some '\n' ∧ s.data.count '\n' = 1

/-! ## Helper lemmas -/

theorem dataAppend (a b : String) : (a ++ b).data = a.data ++ b.data := rfl

theorem stringMkData (s : String) : String.mk s.data = s := rfl

theorem percentDecodeChars_cons_of_ne (c : Char) (l : List Char) (hc : c ≠ '%') :
    percentDecodeChars (c :: l) = c :: percentDecodeChars l := by
  rw [percentDecodeChars.eq_def]
  split
  · simp_all
  · rename_i heq
    rw [List.cons_eq_cons] at heq
    exact absurd heq.1 hc
  · rename_i heq
    rw [List.cons_eq_cons] at heq
    rw [heq.1, heq.2]

theorem encodeSlashChars_cons_of_ne (c : Char) (l : List Char) (hc : c ≠ '/') :
    encodeSlashChars (c :: l) = c :: encodeSlashChars l := by
  rw [encodeSlashChars.eq_def]
  split
  · simp_all
  · rename_i heq
    rw [List.cons_eq_cons] at heq
    exact absurd heq.1 hc
  · rename_i heq
    rw [List.cons_eq_cons] at heq
    rw [heq.1, heq.2]

theorem percentDecodeChars_slashEscape (l : List Char) :
    percentDecodeChars ('%' :: '2' :: 'F' :: l) = '/' :: percentDecodeChars l := rfl

theorem percentDecodeChars_of_not_mem (l : List Char) (h : '%' ∉ l) :
    percentDecodeChars l = l := by
  induction l with
  | nil => rfl
  | cons c rest ih =>
    have hc : c ≠ '%' := fun e => h (e ▸ List.mem_cons_self c rest)
    rw [percentDecodeChars_cons_of_ne c rest hc,
      ih (fun hm => h (List.mem_cons_of_mem c hm))]

theorem percentDecodeChars_encodeSlash (l : List Char) (h : '%' ∉ l) :
    percentDecodeChars (encodeSlashChars l) = l := by
  induction l with
  | nil => rfl
  | cons c rest ih =>
    have hrest : '%' ∉ rest := fun hm => h (List.mem_cons_of_mem c hm)
    by_cases hcs : c = '/'
    · subst hcs
      show percentDecodeChars ('%' :: '2' :: 'F' :: encodeSlashChars rest) = '/' :: rest
      rw [percentDecodeChars_slashEscape, ih hrest]
    · have hc : c ≠ '%' := fun e => h (e ▸ List.mem_cons_self c rest)
      rw [encodeSlashChars_cons_of_ne c rest hcs,
        percentDecodeChars_cons_of_ne c _ hc, ih hrest]

theorem jsonEscapeList_id (l : List Char)
    (h : ∀ c ∈ l, c ≠ '"' ∧ c ≠ '\\' ∧ c ≠ '\n') :
    jsonEscapeList l = l := by
  induction l with
  | nil => rfl
  | cons c rest ih =>
    have hc := h c (List.mem_cons_self c rest)
    rw [jsonEscapeList, if_neg hc.1, if_neg hc.2.1, if_neg hc.2.2,
      ih (fun d hd => h d (List.mem_cons_of_mem c hd))]

theorem jsonEscapeList_count_newline (l : List Char) :
    (jsonEscapeList l).count '\n' = 0 := by
  induction l with
  | nil => rfl
  | cons c rest ih =>
    rw [jsonEscapeList]
    by_cases h1 : c = '"'
    · simp [h1, List.count_cons, ih]
    · by_cases h2 : c = '\\'
      · simp [h1, h2, List.count_cons, ih]
      · by_cases h3 : c = '\n'
        · simp [h1, h2, h3, List.count_cons, ih]
        · simp [h1, h2, h3, List.count_cons, ih]

theorem digitChar_bounds (d : Nat) :
    48 ≤ (digitChar d).toNat ∧ (digitChar d).toNat ≤ 57 := by
  rcases d with _|_|_|_|_|_|_|_|_|_|d <;>
    first
      | decide
      | exact (by decide : 48 ≤ ('0').toNat ∧ ('0').toNat ≤ 57)

theorem natDecimalAux_chars (fuel : Nat) :
    ∀ (n : Nat) (acc : List Char),
      (∀ c ∈ acc, 48 ≤ c.toNat ∧ c.toNat ≤ 57) →
      ∀ c ∈ natDecimalAux fuel n acc, 48 ≤ c.toNat ∧ c.toNat ≤ 57 := by
  induction fuel with
  | zero => intro n acc hacc c hc; exact hacc c hc
  | succ fuel ih =>
    intro n acc hacc c hc
    rw [natDecimalAux] at hc
    split at hc
    · rcases List.mem_cons.mp hc with rfl | hmem
      · exact digitChar_bounds n
      · exact hacc c hmem
    · refine ih (n / 10) (digitChar (n % 10) :: acc) ?_ c hc
      intro d hd
      rcases List.mem_cons.mp hd with rfl | hmem
      · exact digitChar_bounds (n % 10)
      · exact hacc d hmem

theorem natDecimalAux_length (fuel : Nat) :
    ∀ (n : Nat) (acc : List Char),
      acc.length ≤ (natDecimalAux fuel n acc).length := by
  induction fuel with
  | zero => intro n acc; exact Nat.le_refl _
  | succ fuel ih =>
    intro n acc
    rw [natDecimalAux]
    split
    · exact Nat.le_succ_of_le (Nat.le_refl _)
    · exact Nat.le_trans (Nat.le_succ _) (ih (n / 10) (digitChar (n % 10) :: acc))

theorem natDecimal_chars (n : Nat) :
    ∀ c ∈ (natDecimal n).data, 48 ≤ c.toNat ∧ c.toNat ≤ 57 := by
  intro c hc
  exact natDecimalAux_chars (n + 1) n [] (by intro d hd; cases hd) c hc

theorem natDecimal_ne_nil (n : Nat) : (natDecimal n).data ≠ [] := by
  intro h
  have hlen : (natDecimal n).data.length = 0 := by rw [h]; rfl
  rw [natDecimal] at hlen
  rw [natDecimalAux] at hlen
  revert hlen
  split
  · intro hlen; simp at hlen
  · intro hlen
    have := natDecimalAux_length n (n / 10) [digitChar (n % 10)]
    simp [hlen] at this

theorem intDecimal_chars (v : Int) :
    ∀ c ∈ (intDecimal v).data, c.toNat = 45 ∨ (48 ≤ c.toNat ∧ c.toNat ≤ 57) := by
  intro c hc
  match v with
  | Int.ofNat n => exact Or.inr (natDecimal_chars n c hc)
  | Int.negSucc n =>
    rw [intDecimal] at hc
    have : c ∈ ('-' :: (natDecimal (n + 1)).data) := hc
    rcases List.mem_cons.mp this with rfl | hmem
    · exact Or.inl (by decide)
    · exact Or.inr (natDecimal_chars (n + 1) c hmem)

theorem intDecimal_count_newline (v : Int) : (intDecimal v).data.count '\n' = 0 := by
  apply List.count_eq_zero.mpr
  intro hmem
  rcases intDecimal_chars v '\n' hmem with h | h <;> revert h <;> decide

theorem intDecimal_ne_nil (v : Int) : (intDecimal v).data ≠ [] := by
  match v with
  | Int.ofNat n => exact natDecimal_ne_nil n
  | Int.negSucc n =>
    rw [intDecimal]
    intro h
    have : ('-' :: (natDecimal (n + 1)).data) = [] := h
    cases this

theorem set_fields (s : IngressState) (e : Envelope) :
    (s.set e).capacity = s.capacity ∧
    s.droppedCounter ≤ (s.set e).droppedCounter := by
  rw [IngressState.set]
  split <;> simp

theorem enqueueAll_invariant (es : List Envelope) :
    ∀ (s : IngressState), 0 < s.capacity → s.ring.length ≤ s.capacity →
      (s.enqueueAll es).droppedCounter =
        s.droppedCounter + (s.ring.length + es.length - s.capacity) ∧
      (s.enqueueAll es).ring.length = min (s.ring.length + es.length) s.capacity ∧
      (s.enqueueAll es).logs.length =
        s.logs.length + (s.ring.length + es.length - s.capacity) := by
  induction es with
  | nil =>
    intro s hcap hlen
    refine ⟨?_, ?_, ?_⟩ <;> simp [IngressState.enqueueAll] <;> omega
  | cons e rest ih =>
    intro s hcap hlen
    have hstep : IngressState.enqueueAll s (e :: rest) =
        IngressState.enqueueAll (s.set e) rest := rfl
    rw [hstep]
    by_cases hfull : s.ring.length < s.capacity
    · have hset : s.set e =
          { s with ring := s.ring ++ [e] } := by
        rw [IngressState.set, if_pos hfull]
      rw [hset]
      have ih' := ih { s with ring := s.ring ++ [e] } (by simpa using hcap)
        (by simp; omega)
      simp only [List.length_append, List.length_cons] at ih' ⊢
      refine ⟨?_, ?_, ?_⟩
      · rw [ih'.1]; simp; omega
      · rw [ih'.2.1]; simp; omega
      · rw [ih'.2.2]; simp; omega
    · have heq : s.ring.length = s.capacity := by omega
      have hset : s.set e = { s with
          ring := s.ring.tail ++ [e]
          droppedCounter := s.droppedCounter + 1
          logs := s.logs ++ ["Dropped 1 envelopes"] } := by
        rw [IngressState.set, if_neg hfull]
      rw [hset]
      have ih' := ih { s with
          ring := s.ring.tail ++ [e]
          droppedCounter := s.droppedCounter + 1
          logs := s.logs ++ ["Dropped 1 envelopes"] } (by simpa using hcap)
        (by simp [List.length_tail]; omega)
      simp only [List.length_append, List.length_cons, List.length_tail] at ih' ⊢
      refine ⟨?_, ?_, ?_⟩
      · rw [ih'.1]; simp; omega
      · rw [ih'.2.1]; simp [List.length_tail]; omega
      · rw [ih'.2.2]; simp; omega

/-! ## Claim theorems -/

/-- C1 counterexample: the claim fails as stated. The source identifier
"a%2F/b" contains a slash, yet the GET of the literal-slash path decodes to
"a//b", not back to the identifier itself, so the two request encodings do
not both produce an outgoing Read RPC whose sourceId equals it. -/
theorem c1_counterexample :
    '/' ∈ ("a%2F/b").data ∧
    readRpcSourceId "a%2F/b" ≠ "a%2F/b" ∧
    readRpcSourceId "a%2F/b" = "a//b" := by decide

/-- C1 (amended): for every source identifier s that contains a slash and
contains no percent character, the GET of the path with each slash written as
%2F and the GET of the path with literal slashes both produce an outgoing
Read RPC whose sourceId equals s exactly. -/
theorem c1_sourceId_roundtrip (s : String)
    (hslash : '/' ∈ s.data) (hpct : '%' ∉ s.data) :
    readRpcSourceId (encodeSlash s) = s ∧ readRpcSourceId s = s := by
  constructor
  · show String.mk (percentDecodeChars (encodeSlashChars s.data)) = s
    rw [percentDecodeChars_encodeSlash s.data hpct]
  · show String.mk (percentDecodeChars s.data) = s
    rw [percentDecodeChars_of_not_mem s.data hpct]

/-- C1 witness: the amended round-trip at the source identifier used by the
repository's gateway test. -/
theorem c1_witness :
    '/' ∈ ("some-source/id").data ∧ '%' ∉ ("some-source/id").data ∧
    (readRpcSourceId (encodeSlash "some-source/id") = "some-source/id" ∧
      readRpcSourceId "some-source/id" = "some-source/id") :=
  ⟨by decide, by decide, c1_sourceId_roundtrip "some-source/id" (by decide) (by decide)⟩

/-- C2: for every SendRequest, including one whose Envelopes field is nil,
BatchedIngressClient.Send returns the (non-nil) empty SendResponse and a nil
error; its only effect is to enqueue each envelope of the request's batch
individually, in batch order, into the ring buffer. The function consults no
downstream component, so it cannot block on downstream availability. -/
theorem c2_send_fire_and_forget (buffer : IngressState) (ctx : Context)
    (input : SendRequest) (opts : List CallOption) :
    (BatchedIngressClient.Send buffer ctx input opts).2.1 = ⟨⟩ ∧
    (BatchedIngressClient.Send buffer ctx input opts).2.2 = none ∧
    (BatchedIngressClient.Send buffer ctx input opts).1 =
      input.getBatchList.foldl IngressState.set buffer ∧
    (input.envelopes = none →
      (BatchedIngressClient.Send buffer ctx input opts).1 = buffer) := by
  refine ⟨rfl, rfl, rfl, ?_⟩
  intro h
  show IngressState.enqueueAll buffer input.getBatchList = buffer
  rw [SendRequest.getBatchList, h]
  rfl

/-- C2 witness: Send on a request with a nil Envelopes field returns the
empty response and no error and leaves the buffer unchanged. -/
theorem c2_witness :
    (BatchedIngressClient.Send (initialIngress 3) Context.background
        { localOnly := false, envelopes := none } []).1 = initialIngress 3 ∧
    (BatchedIngressClient.Send (initialIngress 3) Context.background
        { localOnly := false, envelopes := none } []).2.2 = none ∧
    (BatchedIngressClient.Send (initialIngress 3) Context.background
        { localOnly := false, envelopes := none } []).2.1 = ⟨⟩ :=
  ⟨(c2_send_fire_and_forget (initialIngress 3) Context.background
      { localOnly := false, envelopes := none } []).2.2.2 rfl,
    (c2_send_fire_and_forget (initialIngress 3) Context.background
      { localOnly := false, envelopes := none } []).2.1,
    (c2_send_fire_and_forget (initialIngress 3) Context.background
      { localOnly := false, envelopes := none } []).1⟩

/-- C3: flushing a non-empty batch accumulator produces exactly one
downstream Send RPC carrying the accumulated envelopes in accumulation order
with LocalOnly true, under the fresh 3-second background context; the
accumulator is emptied (the batch is discarded, never retried) and an RPC
error is only logged, while a successful RPC logs nothing. -/
theorem c3_flush_single_rpc (c : SendRequest → Option String) (sz : Nat)
    (acc : List Envelope) (hacc : acc ≠ []) :
    (Batcher.Flush c { size := sz, batch := acc }).2.calls =
      [{ ctx := Context.withTimeout Context.background 3
         request := { localOnly := true, envelopes := some { batch := acc } } }] ∧
    (Batcher.Flush c { size := sz, batch := acc }).1.batch = [] ∧
    (c { localOnly := true, envelopes := some { batch := acc } } = none →
      (Batcher.Flush c { size := sz, batch := acc }).2.logs = []) ∧
    (∀ err, c { localOnly := true, envelopes := some { batch := acc } } = some err →
      (Batcher.Flush c { size := sz, batch := acc }).2.logs =
        ["failed to write envelope: " ++ err]) := by
  rcases acc with _ | ⟨e, rest⟩
  · exact absurd rfl hacc
  · have hfl : Batcher.Flush c { size := sz, batch := e :: rest } =
        ({ size := sz, batch := [] }, BatchedIngressClient.write c (e :: rest)) := rfl
    rw [hfl]
    cases hc : c { localOnly := true, envelopes := some { batch := e :: rest } } with
    | none =>
      refine ⟨?_, rfl, fun _ => ?_, fun err herr => ?_⟩
      · simp [BatchedIngressClient.write, hc]
      · simp [BatchedIngressClient.write, hc]
      · cases herr
    | some err0 =>
      refine ⟨?_, rfl, fun hnone => ?_, fun err herr => ?_⟩
      · simp [BatchedIngressClient.write, hc]
      · cases hnone
      · cases herr
        simp [BatchedIngressClient.write, hc]

/-- C3 witness: flushing a two-envelope accumulator against a failing
downstream client issues the single local-only call and logs the error. -/
theorem c3_witness :
    ([⟨1⟩, ⟨2⟩] : List Envelope) ≠ [] ∧
    ((Batcher.Flush (fun _ => some "boom") { size := 100, batch := [⟨1⟩, ⟨2⟩] }).2.calls =
      [{ ctx := Context.withTimeout Context.background 3
         request := { localOnly := true, envelopes := some { batch := [⟨1⟩, ⟨2⟩] } } }] ∧
    (Batcher.Flush (fun _ => some "boom") { size := 100, batch := [⟨1⟩, ⟨2⟩] }).1.batch = [] ∧
    ((fun _ => some "boom" : SendRequest → Option String)
        { localOnly := true, envelopes := some { batch := [⟨1⟩, ⟨2⟩] } } = none →
      (Batcher.Flush (fun _ => some "boom") { size := 100, batch := [⟨1⟩, ⟨2⟩] }).2.logs = []) ∧
    (∀ err, (fun _ => some "boom" : SendRequest → Option String)
        { localOnly := true, envelopes := some { batch := [⟨1⟩, ⟨2⟩] } } = some err →
      (Batcher.Flush (fun _ => some "boom") { size := 100, batch := [⟨1⟩, ⟨2⟩] }).2.logs =
        ["failed to write envelope: " ++ err])) :=
  ⟨by decide,
    c3_flush_single_rpc (fun _ => some "boom") 100 [⟨1⟩, ⟨2⟩] (by decide)⟩

/-- C4: a failed query RPC with message m yields HTTP 500, Content-Type
application/json, and a body that is exactly the JSON object with status
"error", errorType "internal" and error m, m inserted verbatim (stated here
for m without characters that JSON string encoding must escape); at the
test's message "expected error" the body is the exact expected JSON text. -/
theorem c4_error_response (m : String)
    (hm : ∀ ch ∈ m.data, ch ≠ '"' ∧ ch ≠ '\\' ∧ ch ≠ '\n') :
    (promQLErrorResponse m).status = 500 ∧
    (promQLErrorResponse m).contentType = "application/json" ∧
    (promQLErrorResponse m).body =
      "\x7b\"status\":\"error\",\"errorType\":\"internal\",\"error\":\"" ++ m ++ "\"\x7d" ∧
    (promQLErrorResponse "expected error").body =
      "\x7b\"status\":\"error\",\"errorType\":\"internal\",\"error\":\"expected error\"\x7d" := by
  refine ⟨rfl, rfl, ?_, by decide⟩
  show "\x7b\"status\":\"error\",\"errorType\":\"internal\",\"error\":\"" ++
      jsonEscape m ++ "\"\x7d" =
    "\x7b\"status\":\"error\",\"errorType\":\"internal\",\"error\":\"" ++ m ++ "\"\x7d"
  have hesc : jsonEscape m = m := by
    show String.mk (jsonEscapeList m.data) = m
    rw [jsonEscapeList_id m.data hm]
  rw [hesc]

/-- C4 witness: the error response at the message from the repository's
gateway test. -/
theorem c4_witness :
    (∀ ch ∈ ("expected error").data, ch ≠ '"' ∧ ch ≠ '\\' ∧ ch ≠ '\n') ∧
    ((promQLErrorResponse "expected error").status = 500 ∧
      (promQLErrorResponse "expected error").contentType = "application/json" ∧
      (promQLErrorResponse "expected error").body =
        "\x7b\"status\":\"error\",\"errorType\":\"internal\",\"error\":\"" ++
          "expected error" ++ "\"\x7d" ∧
      (promQLErrorResponse "expected error").body =
        "\x7b\"status\":\"error\",\"errorType\":\"internal\",\"error\":\"expected error\"\x7d") :=
  ⟨by decide, c4_error_response "expected error" (by decide)⟩

/-- C5: the instant-query scalar encoding renders the success envelope with
the result as the pair of timestamp and value-as-decimal-string; at the value
exactly 0 the rendered value is the string "0" (as in the repository's
gateway test at time 99), and the rendered value string is never empty, nor
the text null, true or false. -/
theorem c5_scalar_zero (t v : Int) :
    intDecimal 0 = "0" ∧
    (promQLScalarResponse 99 0).body =
      "\x7b\"status\":\"success\",\"data\":\x7b\"resultType\":\"scalar\",\"result\":[99,\"0\"]\x7d\x7d" ∧
    (intDecimal v ≠ "" ∧ intDecimal v ≠ "null" ∧
      intDecimal v ≠ "true" ∧ intDecimal v ≠ "false") ∧
    (promQLScalarResponse t v).body =
      "\x7b\"status\":\"success\",\"data\":\x7b\"resultType\":\"scalar\",\"result\":[" ++
        intDecimal t ++ ",\"" ++ intDecimal v ++ "\"]\x7d\x7d" := by
  refine ⟨by decide, by decide, ⟨?_, ?_, ?_, ?_⟩, rfl⟩
  · intro h
    exact intDecimal_ne_nil v (congrArg String.data h)
  · intro h
    have hmem : 'u' ∈ (intDecimal v).data := by rw [congrArg String.data h]; decide
    rcases intDecimal_chars v 'u' hmem with hch | hch <;> revert hch <;> decide
  · intro h
    have hmem : 'u' ∈ (intDecimal v).data := by rw [congrArg String.data h]; decide
    rcases intDecimal_chars v 'u' hmem with hch | hch <;> revert hch <;> decide
  · intro h
    have hmem : 'a' ∈ (intDecimal v).data := by rw [congrArg String.data h]; decide
    rcases intDecimal_chars v 'a' hmem with hch | hch <;> revert hch <;> decide

/-- C5 witness: the zero value renders as the decimal string "0" and an
arbitrary value does not render as null. -/
theorem c5_witness :
    intDecimal 0 = "0" ∧ intDecimal 3 ≠ "null" :=
  ⟨(c5_scalar_zero 99 3).1, (c5_scalar_zero 99 3).2.2.1.2.1⟩

/-- C6: an enqueue into a full ring buffer overwrites the oldest unread entry
and fires the overflow callback, which logs the dropped count and adds it to
the drop counter; the counter never decreases across an enqueue, and after
enqueuing more envelopes than the capacity into a fresh buffer with none
consumed, the counter (and the number of drop log lines) totals exactly the
number of envelopes minus the capacity. -/
theorem c6_overflow_drop_counter (cap : Nat) (es : List Envelope)
    (s : IngressState) (e : Envelope)
    (hcap : 0 < cap) (hgt : cap < es.length) :
    s.droppedCounter ≤ (s.set e).droppedCounter ∧
    (s.ring.length = s.capacity →
      (s.set e).ring = s.ring.tail ++ [e] ∧
      (s.set e).droppedCounter = s.droppedCounter + 1 ∧
      (s.set e).logs = s.logs ++ ["Dropped 1 envelopes"]) ∧
    ((initialIngress cap).enqueueAll es).droppedCounter = es.length - cap ∧
    ((initialIngress cap).enqueueAll es).logs.length = es.length - cap := by
  have hinv := enqueueAll_invariant es (initialIngress cap)
    (by simpa [initialIngress] using hcap) (by simp [initialIngress])
  refine ⟨(set_fields s e).2, ?_, ?_, ?_⟩
  · intro hfull
    have hnot : ¬ s.ring.length < s.capacity := by omega
    rw [IngressState.set, if_neg hnot]
    exact ⟨rfl, rfl, rfl⟩
  · have h1 := hinv.1
    simpa [initialIngress] using h1
  · have h3 := hinv.2.2
    simpa [initialIngress] using h3

/-- C6 witness: capacity 2, five envelopes enqueued with none consumed:
exactly three drops are counted and logged, and an enqueue into a full
two-entry buffer overwrites the oldest entry. -/
theorem c6_witness :
    0 < 2 ∧ 2 < ([⟨10⟩, ⟨11⟩, ⟨12⟩, ⟨13⟩, ⟨14⟩] : List Envelope).length ∧
    (({ capacity := 2, ring := [⟨0⟩, ⟨1⟩], droppedCounter := 0, logs := [] } :
        IngressState).droppedCounter ≤
      (({ capacity := 2, ring := [⟨0⟩, ⟨1⟩], droppedCounter := 0, logs := [] } :
        IngressState).set ⟨9⟩).droppedCounter ∧
    (({ capacity := 2, ring := [⟨0⟩, ⟨1⟩], droppedCounter := 0, logs := [] } :
        IngressState).ring.length =
        ({ capacity := 2, ring := [⟨0⟩, ⟨1⟩], droppedCounter := 0, logs := [] } :
        IngressState).capacity →
      (({ capacity := 2, ring := [⟨0⟩, ⟨1⟩], droppedCounter := 0, logs := [] } :
          IngressState).set ⟨9⟩).ring =
        ({ capacity := 2, ring := [⟨0⟩, ⟨1⟩], droppedCounter := 0, logs := [] } :
          IngressState).ring.tail ++ [⟨9⟩] ∧
      (({ capacity := 2, ring := [⟨0⟩, ⟨1⟩], droppedCounter := 0, logs := [] } :
          IngressState).set ⟨9⟩).droppedCounter =
        ({ capacity := 2, ring := [⟨0⟩, ⟨1⟩], droppedCounter := 0, logs := [] } :
          IngressState).droppedCounter + 1 ∧
      (({ capacity := 2, ring := [⟨0⟩, ⟨1⟩], droppedCounter := 0, logs := [] } :
          IngressState).set ⟨9⟩).logs =
        ({ capacity := 2, ring := [⟨0⟩, ⟨1⟩], droppedCounter := 0, logs := [] } :
          IngressState).logs ++ ["Dropped 1 envelopes"]) ∧
    ((initialIngress 2).enqueueAll [⟨10⟩, ⟨11⟩, ⟨12⟩, ⟨13⟩, ⟨14⟩]).droppedCounter =
      ([⟨10⟩, ⟨11⟩, ⟨12⟩, ⟨13⟩, ⟨14⟩] : List Envelope).length - 2 ∧
    ((initialIngress 2).enqueueAll [⟨10⟩, ⟨11⟩, ⟨12⟩, ⟨13⟩, ⟨14⟩]).logs.length =
      ([⟨10⟩, ⟨11⟩, ⟨12⟩, ⟨13⟩, ⟨14⟩] : List Envelope).length - 2) :=
  ⟨by decide, by decide,
    c6_overflow_drop_counter 2 [⟨10⟩, ⟨11⟩, ⟨12⟩, ⟨13⟩, ⟨14⟩]
      { capacity := 2, ring := [⟨0⟩, ⟨1⟩], droppedCounter := 0, logs := [] } ⟨9⟩
      (by decide) (by decide)⟩

/-- C7 counterexample: the claim that the ring buffer capacity is a
configuration input fails on the code. The constructor's configuration
surface (batch size and flush interval) cannot set the capacity: whatever
values external startup code supplies, the constructed buffer's capacity is
the constant 10000. -/
theorem c7_counterexample :
    (NewBatchedIngressClient 5 250).buffer.capacity = 10000 ∧
    (NewBatchedIngressClient 9999 777).buffer.capacity = 10000 ∧
    (NewBatchedIngressClient 9999 777).buffer.capacity ≠ 9999 := by decide

/-- C7 (amended): the ring buffer capacity is the fixed constant 10000 and
not a configuration input; the configuration surface sets only the batch
size threshold and the flush interval, which the constructor stores
exactly. -/
theorem c7_capacity_constant (size intervalMs : Nat) :
    (NewBatchedIngressClient size intervalMs).buffer.capacity = 10000 ∧
    (NewBatchedIngressClient size intervalMs).size = size ∧
    (NewBatchedIngressClient size intervalMs).intervalMs = intervalMs :=
  ⟨rfl, rfl, rfl⟩

/-- C8: the served body of every successful response ends with exactly one
trailing newline: its last character is a newline and it contains exactly
one newline overall, for the scalar query response at every timestamp and
value and for the info response at every version string. -/
theorem c8_trailing_newline (t v : Int) (ver : String) :
    endsOneNewline (servedBody (promQLScalarResponse t v)) ∧
    endsOneNewline (servedBody (infoResponse ver)) := by
  have hq : ∀ (b : String), b.data.count '\n' = 0 →
      endsOneNewline (withTrailingNewline b) := by
    intro b hb
    constructor
    · show (b ++ "\n").data.getLast? = some '\n'
      rw [dataAppend]
      exact List.getLast?_concat _
    · show (b ++ "\n").data.count '\n' = 1
      rw [dataAppend, List.count_append, hb]
      decide
  constructor
  · refine hq (promQLScalarResponse t v).body ?_
    show (("\x7b\"status\":\"success\",\"data\":\x7b\"resultType\":\"scalar\",\"result\":[" ++
      intDecimal t ++ ",\"" ++ intDecimal v ++ "\"]\x7d\x7d").data).count '\n' = 0
    simp only [dataAppend, List.count_append, intDecimal_count_newline]
    decide
  · refine hq (infoResponse ver).body ?_
    show (("\x7b\"version\":\"" ++ jsonEscape ver ++ "\"\x7d").data).count '\n' = 0
    simp only [dataAppend, List.count_append]
    have : (jsonEscape ver).data.count '\n' = 0 := jsonEscapeList_count_newline ver.data
    rw [this]
    decide

/-- C8 witness: the served bodies of the test's scalar response and of the
info response at version 1.2.3 end with exactly one newline. -/
theorem c8_witness :
    endsOneNewline (servedBody (promQLScalarResponse 99 0)) ∧
    endsOneNewline (servedBody (infoResponse "1.2.3")) :=
  c8_trailing_newline 99 0 "1.2.3"

/-- C9: in a consumer-loop iteration in which the ring buffer yields no item,
the accumulator is flushed regardless of its current size and the iteration's
last action is the fixed 50-millisecond sleep; a non-empty accumulator (in
particular one below the size threshold) is sent as one local-only RPC within
that same idle iteration, before the sleep. -/
theorem c9_idle_flush (c : SendRequest → Option String)
    (st : IngressState) (b : Batcher) (hidle : st.ring = []) :
    (BatchedIngressClient.loopIteration c st b).2.1.batch = [] ∧
    ((BatchedIngressClient.loopIteration c st b).2.2).getLast? =
      some (Action.sleepMs 50) ∧
    (b.batch = [] →
      (BatchedIngressClient.loopIteration c st b).2.2 = [Action.sleepMs 50]) ∧
    (b.batch ≠ [] →
      (BatchedIngressClient.loopIteration c st b).2.2 =
        Action.rpc { ctx := Context.withTimeout Context.background 3
                     request := { localOnly := true
                                  envelopes := some { batch := b.batch } } } ::
          ((BatchedIngressClient.write c b.batch).logs.map Action.logLine ++
            [Action.sleepMs 50])) := by
  rcases st with ⟨cap, ring, dc, lg⟩
  simp only at hidle
  subst hidle
  rcases b with ⟨sz, batch⟩
  rcases batch with _ | ⟨e, rest⟩
  · exact ⟨rfl, rfl, fun _ => rfl, fun hne => absurd rfl hne⟩
  · have hloop : BatchedIngressClient.loopIteration c
        ⟨cap, [], dc, lg⟩ ⟨sz, e :: rest⟩ =
        ( ⟨cap, [], dc, lg⟩
        , ({ size := sz, batch := [] } : Batcher)
        , (BatchedIngressClient.write c (e :: rest)).actions ++ [Action.sleepMs 50] ) := rfl
    rw [hloop]
    refine ⟨rfl, List.getLast?_concat _, ?_, ?_⟩
    · intro hnil
      simp at hnil
    · intro hne
      show (BatchedIngressClient.write c (e :: rest)).actions ++ [Action.sleepMs 50] =
        Action.rpc { ctx := Context.withTimeout Context.background 3
                     request := { localOnly := true
                                  envelopes := some { batch := e :: rest } } } ::
          ((BatchedIngressClient.write c (e :: rest)).logs.map Action.logLine ++
            [Action.sleepMs 50])
      cases hc : c { localOnly := true, envelopes := some { batch := e :: rest } } <;>
        simp [BatchedIngressClient.write, WriteEffect.actions, hc]

/-- C9 witness: an idle iteration over an empty buffer with a one-envelope
accumulator below its threshold of 10 flushes it as one RPC before the
50-millisecond sleep. -/
theorem c9_witness :
    (initialIngress 3).ring = [] ∧
    ((BatchedIngressClient.loopIteration (fun _ => none) (initialIngress 3)
        { size := 10, batch := [⟨7⟩] }).2.1.batch = [] ∧
    ((BatchedIngressClient.loopIteration (fun _ => none) (initialIngress 3)
        { size := 10, batch := [⟨7⟩] }).2.2).getLast? = some (Action.sleepMs 50) ∧
    (({ size := 10, batch := [⟨7⟩] } : Batcher).batch = [] →
      (BatchedIngressClient.loopIteration (fun _ => none) (initialIngress 3)
        { size := 10, batch := [⟨7⟩] }).2.2 = [Action.sleepMs 50]) ∧
    (({ size := 10, batch := [⟨7⟩] } : Batcher).batch ≠ [] →
      (BatchedIngressClient.loopIteration (fun _ => none) (initialIngress 3)
        { size := 10, batch := [⟨7⟩] }).2.2 =
        Action.rpc { ctx := Context.withTimeout Context.background 3
                     request := { localOnly := true
                                  envelopes := some { batch :=
                                    ({ size := 10, batch := [⟨7⟩] } : Batcher).batch } } } ::
          ((BatchedIngressClient.write (fun _ => none)
              ({ size := 10, batch := [⟨7⟩] } : Batcher).batch).logs.map Action.logLine ++
            [Action.sleepMs 50]))) :=
  ⟨rfl, c9_idle_flush (fun _ => none) (initialIngress 3) { size := 10, batch := [⟨7⟩] } rfl⟩

/-- C10: the ctx and opts arguments of BatchedIngressClient.Send have no
effect — any two calls differing only in them return identical results and
identical buffer states — and every downstream call issued by the write path
runs under the fresh background context with its own 3-second timeout, so a
canceled producer context never prevents enqueueing or delivery. -/
theorem c10_ctx_opts_no_effect :
    (∀ (buffer : IngressState) (input : SendRequest) (ctx₁ ctx₂ : Context)
        (opts₁ opts₂ : List CallOption),
      BatchedIngressClient.Send buffer ctx₁ input opts₁ =
        BatchedIngressClient.Send buffer ctx₂ input opts₂) ∧
    (∀ (c : SendRequest → Option String) (batch : List Envelope) (call : RpcCall),
      call ∈ (BatchedIngressClient.write c batch).calls →
      call.ctx = Context.withTimeout Context.background 3) := by
  constructor
  · intro buffer input ctx₁ ctx₂ opts₁ opts₂
    rfl
  · intro c batch call hmem
    simp only [BatchedIngressClient.write] at hmem
    split at hmem <;> simp only [List.mem_singleton] at hmem <;> subst hmem <;> rfl

/-- C10 witness: Send under a canceled context equals Send under the
background context with different options, and the write path's call context
is the background context with the 3-second timeout. -/
theorem c10_witness :
    BatchedIngressClient.Send (initialIngress 3) (Context.canceled Context.background)
        { localOnly := false, envelopes := some { batch := [⟨1⟩, ⟨2⟩] } } [] =
      BatchedIngressClient.Send (initialIngress 3) Context.background
        { localOnly := false, envelopes := some { batch := [⟨1⟩, ⟨2⟩] } } [⟨5⟩] ∧
    ({ ctx := Context.withTimeout Context.background 3
       request := { localOnly := true, envelopes := some { batch := [⟨1⟩] } } } :
        RpcCall).ctx = Context.withTimeout Context.background 3 :=
  ⟨c10_ctx_opts_no_effect.1 (initialIngress 3)
      { localOnly := false, envelopes := some { batch := [⟨1⟩, ⟨2⟩] } }
      (Context.canceled Context.background) Context.background [] [⟨5⟩],
    c10_ctx_opts_no_effect.2 (fun _ => none) [⟨1⟩]
      { ctx := Context.withTimeout Context.background 3
        request := { localOnly := true, envelopes := some { batch := [⟨1⟩] } } }
      (by decide)⟩

end LogCache
